import Mathlib

/-!
Shallow embedding of the ArcQuiz quiz-session core (`app.py`).

The embedded slice covers: the question-bank loader and its validation
(`load_questions`), per-question option shuffling (`shuffle_question`),
request-amount clamping (`clamp_int`), session construction
(`build_quiz_session`), the answer-submission handler (`answer`), the grade
classifier (`grade_rank`), and the leaderboard write guard of the result view
(`result_view`).

Ambient randomness (`random.shuffle`) is modelled by passing the post-shuffle
list explicitly, together with a permutation hypothesis where a theorem needs
it.  The Flask session dict is modelled by `SessionState`; the SQLite insert of
the result view is modelled by an insert counter.  Python floats in
`grade_rank` are modelled by exact rationals.
-/

namespace ArcQuiz

/-- A validated question, as produced by `load_questions` (app.py lines 71-91)
and consumed by the session engine: fields `id`, `question`, `options`,
`answer_index`, `explanation`. -/
structure Question where
  id : Nat
  question : String
  options : List String
  answer_index : Nat
  explanation : String
deriving DecidableEq

/-- The letter labels used by the quiz and answer views (app.py lines 217, 252):
`letters = ["A", "B", "C", "D"]`. -/
def letters : List String := ["A", "B", "C", "D"]

/-- The new index of the original option `old` after the option shuffle: the
Python expression `next(i for i, (old_idx, _) in enumerate(indexed) if old_idx
== correct_idx)` of app.py line 109, applied to an arbitrary `old`. -/
def remap_index (indexed : List (Nat × String)) (old : Nat) : Nat :=
  indexed.findIdx (fun p => p.1 == old)

/-- `shuffle_question` (app.py lines 101-114).  The source shuffles
`indexed = list(enumerate(options))` in place with `random.shuffle`; here the
post-shuffle list `indexed` is a parameter (theorems assume it is a permutation
of `q.options.enum`).  The result keeps all other fields, replaces `options`
with the texts of `indexed` in order, and remaps `answer_index`. -/
def shuffle_question (q : Question) (indexed : List (Nat × String)) : Question :=
  { q with
    options := indexed.map Prod.snd,
    answer_index := remap_index indexed q.answer_index }

/-- `clamp_int` (app.py lines 117-122).  `value = none` models a string on
which Python `int(value)` raises; `some x` models a successful parse. -/
def clamp_int (value : Option Int) (dflt min_v max_v : Int) : Int :=
  match value with
  | some x => max min_v (min max_v x)
  | none => dflt

/-- One record of the session's answer log (app.py lines 258-267). -/
structure AnswerRecord where
  id : Nat
  question : String
  chosen : String
  correct : String
  is_correct : Bool
  explanation : String
deriving DecidableEq

/-- The `session["quiz"]` dict (app.py lines 135-141): the prepared question
sequence, the current position `idx`, the accumulated `score`, and the answer
log.  (`started_at` is an opaque timestamp and is not modelled.) -/
structure QuizState where
  questions : List Question
  idx : Nat
  score : Nat
  answers : List AnswerRecord
deriving DecidableEq

/-- The slice of the Flask session relevant to the claims: the optional quiz
state (`current_quiz` returns `{}` when absent, app.py lines 145-149) and the
`score_saved` flag (app.py lines 142, 288, 298). -/
structure SessionState where
  quiz : Option QuizState
  score_saved : Bool
deriving DecidableEq

/-- `build_quiz_session` (app.py lines 125-142).  The source loads the bank and
shuffles it in place (`random.shuffle(questions)`); `shuffledBank` is that
post-shuffle bank.  `perms i` is the post-shuffle `indexed` list used by
`shuffle_question` for the `i`-th selected question.  The amount is clamped by
`amount = max(1, min(amount, available))`, a prefix is selected, each selected
question is shuffled, and the fresh session state is stored. -/
def build_quiz_session (shuffledBank : List Question)
    (perms : Nat → List (Nat × String)) (amount : Int) : SessionState :=
  let available : Int := shuffledBank.length
  let amt : Int := max 1 (min amount available)
  let selected := shuffledBank.take amt.toNat
  let prepared := selected.enum.map (fun p => shuffle_question p.2 (perms p.1))
  { quiz := some { questions := prepared, idx := 0, score := 0, answers := [] },
    score_saved := false }

/-- Default question used to express Python's `questions[idx]` indexing; the
theorems only use it under a bound `idx < questions.length`, where it never
surfaces. -/
def emptyQuestion : Question := ⟨0, "", [], 0, ""⟩

/-- Python `str.strip()` on the underlying character list: drop leading and
trailing whitespace. -/
def strip_chars (l : List Char) : List Char :=
  ((l.dropWhile Char.isWhitespace).reverse.dropWhile Char.isWhitespace).reverse

/-- Python `str.upper()` on the underlying character list (ASCII case mapping,
which covers the A-D letters the handler compares against). -/
def upper_chars (l : List Char) : List Char := l.map Char.toUpper

/-- Normalisation of the posted choice (app.py line 246):
`(request.form.get("choice") or "").strip().upper()`.  `none` models an absent
form field; `x or ""` also maps the empty string to itself. -/
def normalize_choice (choice : Option String) : String :=
  ⟨upper_chars (strip_chars ((choice.getD "").data))⟩

/-- Outcome of the answer handler, standing for its four redirect/flash
branches. -/
inductive AnswerOutcome where
  | alreadyDone
  | invalidChoice
  | answered
deriving DecidableEq

/-- The index a letter stands for under the fixed labelling A=0, B=1, C=2, D=3
(the inverse of `letters`); used to state the correctness condition of the
claims. -/
def letter_index (s : String) : Nat :=
  if s = "A" then 0
  else if s = "B" then 1
  else if s = "C" then 2
  else if s = "D" then 3
  else 4

/-- The `/answer` handler body on an existing quiz state (app.py lines
239-272): if the session is already terminal, redirect to the result view
unchanged; if the normalised choice is not one of A-D, flash and re-prompt
unchanged; otherwise compare against `correct_letter =
["A","B","C","D"][q["answer_index"]]`, bump the score on a match, append the
answer record and advance `idx`. -/
def answer (st : QuizState) (choice : Option String) : QuizState × AnswerOutcome :=
  if st.questions.length ≤ st.idx then
    (st, .alreadyDone)
  else
    let chosen := normalize_choice choice
    if ¬ (chosen = "A" ∨ chosen = "B" ∨ chosen = "C" ∨ chosen = "D") then
      (st, .invalidChoice)
    else
      let q := st.questions.getD st.idx emptyQuestion
      let correct_letter := letters.getD q.answer_index ""
      let is_correct : Bool := chosen == correct_letter
      ({ questions := st.questions,
         idx := st.idx + 1,
         score := if is_correct then st.score + 1 else st.score,
         answers := st.answers ++
           [⟨q.id, q.question, chosen, correct_letter, is_correct, q.explanation⟩] },
       .answered)

/-- Folding any sequence of answer submissions over a quiz state (the states
reachable from a built session by `/answer` posts). -/
def run_answers (st : QuizState) (choices : List (Option String)) : QuizState :=
  choices.foldl (fun s c => (answer s c).1) st

/-- The session-state invariant claimed for every reachable session: the
position is within bounds, the log length equals the position, and the score
counts exactly the correct log entries (hence is at most the position). -/
def quiz_invariant (st : QuizState) : Prop :=
  st.idx ≤ st.questions.length ∧
  st.answers.length = st.idx ∧
  st.score = (st.answers.filter (fun a => a.is_correct)).length ∧
  st.score ≤ st.idx

/-- A raw question entry as parsed from `data/questions.json`, before
validation: which of the five required keys are present, whether the `options`
value is a list and its length, and whether `answer_index` is an int and its
value.  This captures exactly the observations `load_questions` makes of an
entry (app.py lines 78-89). -/
structure RawEntry where
  hasId : Bool
  hasQuestion : Bool
  hasOptions : Bool
  hasAnswerIndex : Bool
  hasExplanation : Bool
  optionsIsList : Bool
  optionsLen : Nat
  answerIsInt : Bool
  answerIndex : Int
deriving DecidableEq

/-- The errors `load_questions` can raise: `notFound` is the
`FileNotFoundError` of app.py line 73; the other three are the `ValueError`s of
lines 82, 85 and 89, whose messages name respectively the missing fields, the
wrong option count, and the invalid answer index. -/
inductive LoadError where
  | notFound
  | missingField
  | badOptionCount
  | badAnswerIndex
deriving DecidableEq

/-- The per-entry validation of `load_questions` (app.py lines 80-89), in
source order: missing required keys first, then the options list shape, then
the answer-index range.  `none` means the entry passes. -/
def validate_entry (q : RawEntry) : Option LoadError :=
  if ¬ (q.hasId = true ∧ q.hasQuestion = true ∧ q.hasOptions = true ∧
        q.hasAnswerIndex = true ∧ q.hasExplanation = true) then
    some .missingField
  else if ¬ (q.optionsIsList = true ∧ q.optionsLen = 4) then
    some .badOptionCount
  else if ¬ (q.answerIsInt = true ∧ 0 ≤ q.answerIndex ∧ q.answerIndex ≤ 3) then
    some .badAnswerIndex
  else
    none

/-- The first validation error in the bank, in entry order (the loop of app.py
lines 79-89 raises at the first offending entry). -/
def first_error : List RawEntry → Option LoadError
  | [] => none
  | q :: rest =>
    match validate_entry q with
    | some e => some e
    | none => first_error rest

/-- `load_questions` (app.py lines 71-91).  `src = none` models an absent
questions file; `some data` models the parsed JSON array.  On success the full
list is returned unchanged. -/
def load_questions (src : Option (List RawEntry)) : Except LoadError (List RawEntry) :=
  match src with
  | none => .error .notFound
  | some data =>
    match first_error data with
    | some e => .error e
    | none => .ok data

/-- The validity predicate the claims state per entry: all five required
fields present, options a list of exactly 4, and an integer answer index in
[0, 3]. -/
def entry_valid (q : RawEntry) : Prop :=
  (q.hasId = true ∧ q.hasQuestion = true ∧ q.hasOptions = true ∧
   q.hasAnswerIndex = true ∧ q.hasExplanation = true) ∧
  (q.optionsIsList = true ∧ q.optionsLen = 4) ∧
  (q.answerIsInt = true ∧ 0 ≤ q.answerIndex ∧ q.answerIndex ≤ 3)

instance (q : RawEntry) : Decidable (entry_valid q) := by
  unfold entry_valid; infer_instance

/-- A grade band: the `{"title": ..., "msg": ...}` dict of `grade_rank`. -/
structure Band where
  title : String
  msg : String
deriving DecidableEq

/-- The band returned when no result can be computed (app.py line 154). -/
def unavailable_band : Band :=
  ⟨"Resultado indisponível", "Não foi possível calcular o resultado."⟩

/-- The band for a perfect score (app.py line 158). -/
def excellent_band : Band :=
  ⟨"Excelente", "Pontuação máxima. Ótimo desempenho."⟩

/-- The band for at least 80 percent (app.py line 160). -/
def very_good_band : Band :=
  ⟨"Muito bom", "Desempenho consistente e acima da média."⟩

/-- The band for at least 60 percent (app.py line 162). -/
def good_band : Band :=
  ⟨"Bom", "Bom resultado. Há espaço para evoluir."⟩

/-- The band for at least 40 percent (app.py line 164). -/
def fair_band : Band :=
  ⟨"Regular", "Você está no caminho. Continue praticando."⟩

/-- The band below 40 percent (app.py line 165). -/
def beginner_band : Band :=
  ⟨"Iniciante", "Normal no começo. Prática traz consistência."⟩

/-- `grade_rank` (app.py lines 152-165).  Python's float division and float
literals are modelled by exact rationals; for the integer scores and totals the
application produces, the comparisons agree. -/
def grade_rank (score total : Int) : Band :=
  if total ≤ 0 then unavailable_band
  else if (score : ℚ) / (total : ℚ) = 1 then excellent_band
  else if 0.8 ≤ (score : ℚ) / (total : ℚ) then very_good_band
  else if 0.6 ≤ (score : ℚ) / (total : ℚ) then good_band
  else if 0.4 ≤ (score : ℚ) / (total : ℚ) then fair_band
  else beginner_band

/-- The `/result` view's session mutation and leaderboard write (app.py lines
275-298), with the SQLite insert abstracted to a count (0 or 1) of rows
inserted by this invocation.  When no quiz is active the view redirects without
writing; otherwise it inserts exactly when `score_saved` is unset, then sets
the flag.  Note the source performs no terminality check (`idx` vs question
count) on this path. -/
def result_view (s : SessionState) : SessionState × Nat :=
  match s.quiz with
  | none => (s, 0)
  | some _ =>
    if s.score_saved then (s, 0)
    else ({ s with score_saved := true }, 1)

/-- `n` consecutive invocations of the result view on a session, returning the
final session state and the total number of leaderboard rows inserted. -/
def result_iter : SessionState → Nat → SessionState × Nat
  | s, 0 => (s, 0)
  | s, n + 1 =>
    let r1 := result_view s
    let r2 := result_iter r1.1 n
    (r2.1, r1.2 + r2.2)

/-- The requested amount the `/start` handler passes to `build_quiz_session`
(app.py lines 181-198): the raw form value is clamped with
`clamp_int(requested_raw, default=min(10, available), min_v=1,
max_v=available)`. -/
def start_amount (available : Nat) (raw : Option Int) : Int :=
  clamp_int raw (min 10 (available : Int)) 1 (available : Int)

/-! Concrete sample data used to instantiate the theorems. -/

/-- A sample well-formed question. -/
def sampleQuestion : Question :=
  ⟨1, "q1", ["o1", "o2", "o3", "o4"], 2, "e1"⟩

/-- Another sample well-formed question, with the first option correct. -/
def sampleQuestion2 : Question :=
  ⟨2, "q2", ["p1", "p2", "p3", "p4"], 0, "e2"⟩

/-- A quiz state strictly mid-quiz: position 0 of 2, nothing answered yet. -/
def midQuiz : QuizState := ⟨[sampleQuestion, sampleQuestion2], 0, 0, []⟩

/-- A session that is strictly mid-quiz (position 0 of 2) and not yet
persisted. -/
def nonterminalSession : SessionState := ⟨some midQuiz, false⟩

/-- A completed, not-yet-persisted session. -/
def finishedSession : SessionState :=
  ⟨some ⟨[sampleQuestion2], 1, 1,
    [⟨2, "q2", "A", "A", true, "e2"⟩]⟩, false⟩

/-- A raw bank entry with all fields present but only 3 options. -/
def badLenEntry : RawEntry :=
  ⟨true, true, true, true, true, true, 3, true, 0⟩

/-- A raw bank entry that passes every validation check. -/
def goodEntry : RawEntry :=
  ⟨true, true, true, true, true, true, 4, true, 2⟩

/-- A concrete post-shuffle `indexed` list for `sampleQuestion`: its enumerated
options in reversed order. -/
def sampleIndexed : List (Nat × String) :=
  [(3, "o4"), (2, "o3"), (1, "o2"), (0, "o1")]

/-! ## Theorems -/

/-- Shape of a freshly built session: flag unset, position and score zero,
empty log, and a question sequence of length
`min (max 1 (min amount available)).toNat available`. -/
theorem build_quiz_session_spec (shuffledBank : List Question)
    (perms : Nat → List (Nat × String)) (amount : Int) :
    (build_quiz_session shuffledBank perms amount).score_saved = false ∧
    ∃ qz, (build_quiz_session shuffledBank perms amount).quiz = some qz ∧
      qz.idx = 0 ∧ qz.score = 0 ∧ qz.answers = [] ∧
      qz.questions.length =
        min (max 1 (min amount (shuffledBank.length : Int))).toNat
          shuffledBank.length := by
  refine ⟨rfl, _, rfl, rfl, rfl, rfl, ?_⟩
  simp [build_quiz_session, List.enum_length, List.length_take]

/-- C4: for every integer requested amount `a` and bank of size `n ≥ 1`,
`build_quiz_session` yields a session with question sequence length
`clamp(a, 1, n) = max 1 (min a n)`, position 0, score 0, empty log, and the
persisted flag unset. -/
theorem build_session_clamps_and_initializes (bank shuffledBank : List Question)
    (perms : Nat → List (Nat × String)) (a : Int)
    (hperm : shuffledBank.Perm bank) (hn : 1 ≤ bank.length) :
    ∃ qz, (build_quiz_session shuffledBank perms a).quiz = some qz ∧
      (qz.questions.length : Int) = max 1 (min a (bank.length : Int)) ∧
      qz.idx = 0 ∧ qz.score = 0 ∧ qz.answers = [] ∧
      (build_quiz_session shuffledBank perms a).score_saved = false := by
  obtain ⟨hsaved, qz, hq, hidx, hsc, hans, hlen⟩ :=
    build_quiz_session_spec shuffledBank perms a
  refine ⟨qz, hq, ?_, hidx, hsc, hans, hsaved⟩
  rw [hlen, hperm.length_eq]
  omega

/-- Witness for `build_session_clamps_and_initializes` at a 2-question bank and
requested amount 5. -/
theorem build_session_clamps_and_initializes_witness :
    ([sampleQuestion2, sampleQuestion] : List Question).Perm
      [sampleQuestion, sampleQuestion2] ∧
    1 ≤ ([sampleQuestion, sampleQuestion2] : List Question).length ∧
    ∃ qz,
      (build_quiz_session [sampleQuestion2, sampleQuestion] (fun _ => []) 5).quiz =
        some qz ∧
      (qz.questions.length : Int) =
        max 1 (min 5 (([sampleQuestion, sampleQuestion2] : List Question).length : Int)) ∧
      qz.idx = 0 ∧ qz.score = 0 ∧ qz.answers = [] ∧
      (build_quiz_session [sampleQuestion2, sampleQuestion] (fun _ => []) 5).score_saved =
        false :=
  ⟨by decide, by decide,
    build_session_clamps_and_initializes [sampleQuestion, sampleQuestion2]
      [sampleQuestion2, sampleQuestion] (fun _ => []) 5 (by decide) (by decide)⟩

/-- C5: on a non-terminal session, a choice that does not normalise to one of
A, B, C, D leaves the quiz state entirely unchanged and signals a validation
failure (the caller re-prompts). -/
theorem submit_answer_invalid_is_noop (st : QuizState) (choice : Option String)
    (hidx : st.idx < st.questions.length)
    (hinv : ¬ (normalize_choice choice = "A" ∨ normalize_choice choice = "B" ∨
               normalize_choice choice = "C" ∨ normalize_choice choice = "D")) :
    answer st choice = (st, AnswerOutcome.invalidChoice) := by
  have h1 : ¬ (st.questions.length ≤ st.idx) := not_le.mpr hidx
  simp only [answer, if_neg h1, if_pos hinv]

/-- Witness for `submit_answer_invalid_is_noop`: the letter "e" on a fresh
2-question session. -/
theorem submit_answer_invalid_is_noop_witness :
    midQuiz.idx < midQuiz.questions.length ∧
    ¬ (normalize_choice (some "e ") = "A" ∨ normalize_choice (some "e ") = "B" ∨
       normalize_choice (some "e ") = "C" ∨ normalize_choice (some "e ") = "D") ∧
    answer midQuiz (some "e ") = (midQuiz, AnswerOutcome.invalidChoice) :=
  ⟨by decide, by decide,
    submit_answer_invalid_is_noop midQuiz (some "e ") (by decide) (by decide)⟩

/-- When the persisted flag is already set, the result view changes nothing and
inserts nothing. -/
theorem result_view_saved_eq (s : SessionState) (h : s.score_saved = true) :
    result_view s = (s, 0) := by
  unfold result_view
  cases hq : s.quiz <;> simp [h]

/-- When the persisted flag is already set, any number of result-view
invocations inserts nothing. -/
theorem result_iter_saved_eq (s : SessionState) (h : s.score_saved = true) :
    ∀ n, result_iter s n = (s, 0) := by
  intro n
  induction n with
  | zero => rfl
  | succ n ih => simp [result_iter, result_view_saved_eq s h, ih]

/-- When no quiz is active, any number of result-view invocations inserts
nothing. -/
theorem result_iter_no_quiz_eq (s : SessionState) (h : s.quiz = none) :
    ∀ n, result_iter s n = (s, 0) := by
  intro n
  induction n with
  | zero => rfl
  | succ n ih =>
    have hv : result_view s = (s, 0) := by unfold result_view; rw [h]
    simp [result_iter, hv, ih]

/-- C7: finalization writes at most one leaderboard row per session however
often the result view is invoked; once the flag is set no further insert
happens, and two consecutive invocations on an unpersisted active session
produce exactly one insert. -/
theorem result_persists_at_most_once (s : SessionState) (n : Nat) :
    (result_iter s n).2 ≤ 1 ∧
    (s.score_saved = true → ∀ m, (result_iter s m).2 = 0) ∧
    (s.score_saved = false → (∃ qz, s.quiz = some qz) → (result_iter s 2).2 = 1) := by
  refine ⟨?_, ?_, ?_⟩
  · induction n generalizing s with
    | zero => simp [result_iter]
    | succ n ih =>
      cases hq : s.quiz with
      | none =>
        have hv : result_view s = (s, 0) := by unfold result_view; rw [hq]
        simpa [result_iter, hv] using ih s
      | some qz =>
        by_cases hs : s.score_saved
        · simpa [result_iter, result_view_saved_eq s hs] using ih s
        · have hs' : s.score_saved = false := by simp [hs]
          have hv : result_view s = ({ s with score_saved := true }, 1) := by
            unfold result_view; rw [hq]; simp [hs']
          have hrest := result_iter_saved_eq { s with score_saved := true } rfl n
          simp [result_iter, hv, hrest]
  · intro hs m
    simp [result_iter_saved_eq s hs m]
  · rintro hs ⟨qz, hq⟩
    have hv : result_view s = ({ s with score_saved := true }, 1) := by
      unfold result_view; rw [hq]; simp [hs]
    have h2 := result_view_saved_eq { s with score_saved := true } rfl
    simp [result_iter, hv, h2]

/-- Witness for `result_persists_at_most_once`: two result invocations on a
finished, unpersisted session insert exactly one row. -/
theorem result_persists_at_most_once_witness :
    finishedSession.score_saved = false ∧
    (∃ qz, finishedSession.quiz = some qz) ∧
    (result_iter finishedSession 2).2 = 1 :=
  ⟨rfl, ⟨_, rfl⟩, (result_persists_at_most_once finishedSession 2).2.2 rfl ⟨_, rfl⟩⟩

/-- C8 counterexample: a session at position 0 of 2 (strictly non-terminal)
with the flag unset; invoking the result view nevertheless inserts one
leaderboard row, refuting "no insert before position == length". -/
theorem result_view_nonterminal_inserts_cex :
    nonterminalSession.quiz = some midQuiz ∧
    midQuiz.idx < midQuiz.questions.length ∧
    (result_view nonterminalSession).2 = 1 :=
  ⟨rfl, by decide, rfl⟩

/-- C8 amended: the leaderboard write is guarded only by the persisted flag,
not by terminality — for every session with an active quiz, the result view
inserts exactly one row when the flag is unset (whatever the position) and none
when it is set; only the quiz view's redirect confines the write to terminal
sessions in normal navigation. -/
theorem result_view_insert_guard_is_flag (s : SessionState) (qz : QuizState)
    (h : s.quiz = some qz) :
    (result_view s).2 = if s.score_saved then 0 else 1 := by
  simp only [result_view, h]
  split_ifs <;> rfl

/-- Witness for `result_view_insert_guard_is_flag` on the non-terminal
session. -/
theorem result_view_insert_guard_is_flag_witness :
    nonterminalSession.quiz = some midQuiz ∧
    (result_view nonterminalSession).2 =
      if nonterminalSession.score_saved then 0 else 1 :=
  ⟨rfl, result_view_insert_guard_is_flag nonterminalSession midQuiz rfl⟩

/-- C10 counterexample: with a 2-question bank, the numeric but out-of-range
request "0" clamps to the lower bound 1, not to the caller-supplied default
`min 10 2 = 2`. -/
theorem start_amount_not_default_cex :
    start_amount 2 (some 0) = 1 ∧
    min 10 ((2 : Nat) : Int) = 2 ∧
    start_amount 2 (some 0) ≠ min 10 ((2 : Nat) : Int) := by
  decide

/-- C10 amended: invalid requested amounts never fail the request — non-numeric
input falls back to the caller-supplied default `min 10 available`, numeric
input clamps to the nearest bound of [1, available] — and the session is built
with exactly that in-range amount. -/
theorem start_amount_lenient_clamp (available : Nat) (raw : Option Int)
    (shuffledBank : List Question) (perms : Nat → List (Nat × String))
    (hav : 1 ≤ available) (hlen : shuffledBank.length = available) :
    1 ≤ start_amount available raw ∧
    start_amount available raw ≤ (available : Int) ∧
    (raw = none → start_amount available raw = min 10 (available : Int)) ∧
    (∀ x : Int, raw = some x →
      start_amount available raw = max 1 (min x (available : Int))) ∧
    ∃ qz,
      (build_quiz_session shuffledBank perms (start_amount available raw)).quiz =
        some qz ∧
      (qz.questions.length : Int) = start_amount available raw := by
  have hbounds : 1 ≤ start_amount available raw ∧
      start_amount available raw ≤ (available : Int) := by
    unfold start_amount clamp_int
    cases raw <;> simp <;> omega
  obtain ⟨hsaved, qz, hq, hidx, hsc, hans, hlenq⟩ :=
    build_quiz_session_spec shuffledBank perms (start_amount available raw)
  refine ⟨hbounds.1, hbounds.2, ?_, ?_, qz, hq, ?_⟩
  · intro h; subst h; rfl
  · intro x h; subst h
    simp [start_amount, clamp_int, min_comm]
  · rw [hlenq, hlen]
    obtain ⟨hb1, hb2⟩ := hbounds
    omega

/-- Witness for `start_amount_lenient_clamp` at a 2-question bank and the
out-of-range request 0. -/
theorem start_amount_lenient_clamp_witness :
    1 ≤ (2 : Nat) ∧
    ([sampleQuestion, sampleQuestion2] : List Question).length = 2 ∧
    (1 ≤ start_amount 2 (some 0) ∧
     start_amount 2 (some 0) ≤ ((2 : Nat) : Int) ∧
     ((some (0 : Int)) = none → start_amount 2 (some 0) = min 10 ((2 : Nat) : Int)) ∧
     (∀ x : Int, (some (0 : Int)) = some x →
       start_amount 2 (some 0) = max 1 (min x ((2 : Nat) : Int))) ∧
     ∃ qz,
       (build_quiz_session [sampleQuestion, sampleQuestion2] (fun _ => [])
         (start_amount 2 (some 0))).quiz = some qz ∧
       (qz.questions.length : Int) = start_amount 2 (some 0)) :=
  ⟨by decide, by decide,
    start_amount_lenient_clamp 2 (some 0) [sampleQuestion, sampleQuestion2]
      (fun _ => []) (by decide) (by decide)⟩

/-- An entry passes validation exactly when it satisfies the claimed
per-entry validity predicate. -/
theorem validate_entry_eq_none_iff (q : RawEntry) :
    validate_entry q = none ↔ entry_valid q := by
  unfold validate_entry entry_valid
  split_ifs with h1 h2 h3
  · exact iff_of_true rfl ⟨h1, h2, h3⟩
  · exact iff_of_false (by simp) (fun hv => h3 hv.2.2)
  · exact iff_of_false (by simp) (fun hv => h2 hv.2.1)
  · exact iff_of_false (by simp) (fun hv => h1 hv.1)

/-- The per-entry validation never reports the missing-file error. -/
theorem validate_entry_ne_notFound (q : RawEntry) :
    validate_entry q ≠ some LoadError.notFound := by
  unfold validate_entry
  split_ifs <;> simp

/-- The bank sweep reports no error exactly when every entry passes. -/
theorem first_error_eq_none_iff (data : List RawEntry) :
    first_error data = none ↔ ∀ q ∈ data, validate_entry q = none := by
  induction data with
  | nil => simp [first_error]
  | cons q rest ih =>
    simp only [first_error]
    cases h : validate_entry q with
    | none => simp [h, ih]
    | some e => simp [h]

/-- Any error the bank sweep reports is the validation error of some entry of
the bank. -/
theorem first_error_some_mem (data : List RawEntry) (e : LoadError)
    (h : first_error data = some e) :
    ∃ q ∈ data, validate_entry q = some e := by
  induction data with
  | nil => simp [first_error] at h
  | cons q rest ih =>
    simp only [first_error] at h
    cases hq : validate_entry q with
    | none =>
      rw [hq] at h
      obtain ⟨r, hr, hre⟩ := ih h
      exact ⟨r, List.mem_cons_of_mem q hr, hre⟩
    | some e2 =>
      rw [hq] at h
      cases h
      exact ⟨q, List.mem_cons_self q rest, hq⟩

/-- C3: the loader returns the full bank exactly when every entry has all five
required fields, exactly 4 options and an integer answer index in [0, 3]; it
never returns anything but the full input list; whenever some entry is invalid
it fails with a validation error (distinct from the not-found error) that one
of the entries actually raises; and an absent source yields the not-found
error. -/
theorem load_questions_validates_bank :
    load_questions none = Except.error LoadError.notFound ∧
    ∀ data : List RawEntry,
      (load_questions (some data) = Except.ok data ↔ ∀ q ∈ data, entry_valid q) ∧
      (∀ bank, load_questions (some data) = Except.ok bank → bank = data) ∧
      ((∃ q ∈ data, ¬ entry_valid q) →
        ∃ e, load_questions (some data) = Except.error e ∧
          e ≠ LoadError.notFound ∧ ∃ q ∈ data, validate_entry q = some e) := by
  have hnone : ∀ (data : List RawEntry), first_error data = none →
      load_questions (some data) = Except.ok data := by
    intro data h
    simp only [load_questions, h]
  have hsome : ∀ (data : List RawEntry) (e : LoadError), first_error data = some e →
      load_questions (some data) = Except.error e := by
    intro data e h
    simp only [load_questions, h]
  refine ⟨rfl, fun data => ⟨?_, ?_, ?_⟩⟩
  · cases h : first_error data with
    | none =>
      rw [hnone data h]
      exact iff_of_true rfl (fun q hq => (validate_entry_eq_none_iff q).mp
        ((first_error_eq_none_iff data).mp h q hq))
    | some e =>
      rw [hsome data e h]
      obtain ⟨q, hq, hqe⟩ := first_error_some_mem data e h
      refine iff_of_false (by simp) (fun hall => ?_)
      have hn := (validate_entry_eq_none_iff q).mpr (hall q hq)
      rw [hqe] at hn
      cases hn
  · intro bank hb
    cases h : first_error data with
    | none =>
      rw [hnone data h] at hb
      injection hb with h2
      exact h2.symm
    | some e =>
      rw [hsome data e h] at hb
      cases hb
  · rintro ⟨q, hq, hqv⟩
    cases h : first_error data with
    | none =>
      exact absurd ((validate_entry_eq_none_iff q).mp
        ((first_error_eq_none_iff data).mp h q hq)) hqv
    | some e =>
      refine ⟨e, hsome data e h, ?_, first_error_some_mem data e h⟩
      obtain ⟨r, _, hre⟩ := first_error_some_mem data e h
      intro hne
      rw [hne] at hre
      exact validate_entry_ne_notFound r hre

/-- Witness for `load_questions_validates_bank`: a bank holding one valid entry
and one with only 3 options is rejected with the wrong-option-count error. -/
theorem load_questions_validates_bank_witness :
    (∃ q ∈ [goodEntry, badLenEntry], ¬ entry_valid q) ∧
    ∃ e, load_questions (some [goodEntry, badLenEntry]) = Except.error e ∧
      e ≠ LoadError.notFound ∧
      ∃ q ∈ [goodEntry, badLenEntry], validate_entry q = some e :=
  ⟨⟨badLenEntry, by decide, by decide⟩,
    (load_questions_validates_bank.2 [goodEntry, badLenEntry]).2.2
      ⟨badLenEntry, by decide, by decide⟩⟩

/-- C6: `grade_rank` returns the unavailable band when `total ≤ 0`; otherwise,
with `percent = score/total`, it assigns bands by fixed breakpoints, highest
first, first match wins: Excellent iff percent = 1, else Very good iff
percent ≥ 0.8, else Good iff percent ≥ 0.6, else Fair iff percent ≥ 0.4, else
Beginner; in particular 10/10 is Excellent, 8/10 is Very good, 5/10 is Fair and
0/0 is unavailable. -/
theorem grade_rank_bands :
    (∀ s t : Int, t ≤ 0 → grade_rank s t = unavailable_band) ∧
    (∀ s t : Int, 0 < t →
      ((grade_rank s t = excellent_band ↔ (s : ℚ) / (t : ℚ) = 1) ∧
       (grade_rank s t = very_good_band ↔
         ((s : ℚ) / (t : ℚ) ≠ 1 ∧ 0.8 ≤ (s : ℚ) / (t : ℚ))) ∧
       (grade_rank s t = good_band ↔
         ((s : ℚ) / (t : ℚ) < 0.8 ∧ 0.6 ≤ (s : ℚ) / (t : ℚ))) ∧
       (grade_rank s t = fair_band ↔
         ((s : ℚ) / (t : ℚ) < 0.6 ∧ 0.4 ≤ (s : ℚ) / (t : ℚ))) ∧
       (grade_rank s t = beginner_band ↔ (s : ℚ) / (t : ℚ) < 0.4))) ∧
    grade_rank 10 10 = excellent_band ∧
    grade_rank 8 10 = very_good_band ∧
    grade_rank 5 10 = fair_band ∧
    grade_rank 0 0 = unavailable_band := by
  refine ⟨?_, ?_, ?_, ?_, ?_, ?_⟩
  · intro s t ht
    unfold grade_rank
    rw [if_pos ht]
  · intro s t ht
    have hne : ¬ t ≤ 0 := not_le.mpr ht
    unfold grade_rank
    rw [if_neg hne]
    split_ifs with h1 h2 h3 h4
    · refine ⟨iff_of_true rfl h1, ?_, ?_, ?_, ?_⟩
      · exact iff_of_false (by decide) (fun h => h.1 h1)
      · exact iff_of_false (by decide) (fun h => by rw [h1] at h; norm_num at h)
      · exact iff_of_false (by decide) (fun h => by rw [h1] at h; norm_num at h)
      · exact iff_of_false (by decide) (fun h => by rw [h1] at h; norm_num at h)
    · refine ⟨iff_of_false (by decide) h1, iff_of_true rfl ⟨h1, h2⟩, ?_, ?_, ?_⟩
      · exact iff_of_false (by decide) (fun h => absurd h2 (not_le.mpr h.1))
      · exact iff_of_false (by decide) (fun h => by
          have := h.1
          linarith)
      · exact iff_of_false (by decide) (fun h => by linarith)
    · refine ⟨iff_of_false (by decide) h1, iff_of_false (by decide) (fun h => h2 h.2),
        iff_of_true rfl ⟨not_le.mp h2, h3⟩, ?_, ?_⟩
      · exact iff_of_false (by decide) (fun h => absurd h3 (not_le.mpr h.1))
      · exact iff_of_false (by decide) (fun h => by linarith)
    · refine ⟨iff_of_false (by decide) h1, iff_of_false (by decide) (fun h => h2 h.2),
        iff_of_false (by decide) (fun h => h3 h.2),
        iff_of_true rfl ⟨not_le.mp h3, h4⟩, ?_⟩
      exact iff_of_false (by decide) (fun h => by linarith)
    · exact ⟨iff_of_false (by decide) h1, iff_of_false (by decide) (fun h => h2 h.2),
        iff_of_false (by decide) (fun h => h3 h.2),
        iff_of_false (by decide) (fun h => h4 h.2),
        iff_of_true rfl (not_le.mp h4)⟩
  · norm_num [grade_rank]
  · norm_num [grade_rank]
  · norm_num [grade_rank]
  · norm_num [grade_rank]

/-- Witness for `grade_rank_bands`: a perfect 10/10 is classified Excellent. -/
theorem grade_rank_bands_witness :
    (0 : Int) < 10 ∧ (grade_rank 10 10 = excellent_band ↔ (10 : ℚ) / (10 : ℚ) = 1) :=
  ⟨by decide, ((grade_rank_bands.2.1 10 10 (by decide)).1)⟩

/-- For a normalised letter and an in-range correct index, the source's
comparison `chosen == ["A","B","C","D"][answer_index]` agrees with the
A=0, B=1, C=2, D=3 index mapping. -/
theorem letter_beq_getD_iff (c : String) (ai : Nat)
    (hc : c = "A" ∨ c = "B" ∨ c = "C" ∨ c = "D") (hai : ai < 4) :
    ((c == letters.getD ai "") = true) ↔ letter_index c = ai := by
  interval_cases ai <;> rcases hc with h | h | h | h <;> subst h <;> decide

/-- C1: on a non-terminal session with a well-formed current question, a
choice normalising to a valid letter advances the position by exactly 1,
appends exactly one answer record, and increments the score by 1 exactly when
the letter's index (A=0, B=1, C=2, D=3) equals the current question's correct
index, leaving the score unchanged otherwise. -/
theorem submit_answer_valid_effect (st : QuizState) (choice : Option String)
    (hidx : st.idx < st.questions.length)
    (hval : normalize_choice choice = "A" ∨ normalize_choice choice = "B" ∨
            normalize_choice choice = "C" ∨ normalize_choice choice = "D")
    (hai : (st.questions.getD st.idx emptyQuestion).answer_index < 4) :
    (answer st choice).2 = AnswerOutcome.answered ∧
    (answer st choice).1.idx = st.idx + 1 ∧
    (∃ r, (answer st choice).1.answers = st.answers ++ [r]) ∧
    (answer st choice).1.score =
      (if letter_index (normalize_choice choice) =
          (st.questions.getD st.idx emptyQuestion).answer_index
       then st.score + 1 else st.score) := by
  have h1 : ¬ (st.questions.length ≤ st.idx) := not_le.mpr hidx
  have h2 : ¬ ¬ (normalize_choice choice = "A" ∨ normalize_choice choice = "B" ∨
      normalize_choice choice = "C" ∨ normalize_choice choice = "D") :=
    not_not_intro hval
  have hred : answer st choice =
      ({ questions := st.questions, idx := st.idx + 1,
         score := if (normalize_choice choice ==
             letters.getD (st.questions.getD st.idx emptyQuestion).answer_index "") = true
           then st.score + 1 else st.score,
         answers := st.answers ++
           [⟨(st.questions.getD st.idx emptyQuestion).id,
             (st.questions.getD st.idx emptyQuestion).question,
             normalize_choice choice,
             letters.getD (st.questions.getD st.idx emptyQuestion).answer_index "",
             normalize_choice choice ==
               letters.getD (st.questions.getD st.idx emptyQuestion).answer_index "",
             (st.questions.getD st.idx emptyQuestion).explanation⟩] },
       AnswerOutcome.answered) := by
    simp only [answer, if_neg h1, if_neg h2]
  rw [hred]
  refine ⟨rfl, rfl, ⟨_, rfl⟩, ?_⟩
  have hiff := letter_beq_getD_iff (normalize_choice choice)
    (st.questions.getD st.idx emptyQuestion).answer_index hval hai
  by_cases hc : letter_index (normalize_choice choice) =
      (st.questions.getD st.idx emptyQuestion).answer_index
  · rw [if_pos (hiff.mpr hc), if_pos hc]
  · rw [if_neg (fun hb => hc (hiff.mp hb)), if_neg hc]

/-- Witness for `submit_answer_valid_effect`: answering " b " (normalising to
B, index 1) on the fresh 2-question session whose first correct index is 2. -/
theorem submit_answer_valid_effect_witness :
    midQuiz.idx < midQuiz.questions.length ∧
    (normalize_choice (some " b ") = "A" ∨ normalize_choice (some " b ") = "B" ∨
     normalize_choice (some " b ") = "C" ∨ normalize_choice (some " b ") = "D") ∧
    (midQuiz.questions.getD midQuiz.idx emptyQuestion).answer_index < 4 ∧
    ((answer midQuiz (some " b ")).2 = AnswerOutcome.answered ∧
     (answer midQuiz (some " b ")).1.idx = midQuiz.idx + 1 ∧
     (∃ r, (answer midQuiz (some " b ")).1.answers = midQuiz.answers ++ [r]) ∧
     (answer midQuiz (some " b ")).1.score =
       (if letter_index (normalize_choice (some " b ")) =
           (midQuiz.questions.getD midQuiz.idx emptyQuestion).answer_index
        then midQuiz.score + 1 else midQuiz.score)) :=
  ⟨by decide, by decide, by decide,
    submit_answer_valid_effect midQuiz (some " b ") (by decide) (by decide) (by decide)⟩

/-- One answer submission preserves the session invariant. -/
theorem answer_preserves_invariant (st : QuizState) (c : Option String)
    (h : quiz_invariant st) : quiz_invariant (answer st c).1 := by
  obtain ⟨hb, hl, hs, hsp⟩ := h
  simp only [answer]
  split_ifs with h1 h2 h3
  · exact ⟨hb, hl, hs, hsp⟩
  · push_neg at h1
    rw [h3]
    refine ⟨h1, ?_, ?_, ?_⟩
    · simp [hl]
    · simp [List.filter_append, hs]
    · exact Nat.succ_le_succ hsp
  · push_neg at h1
    rw [Bool.eq_false_iff.mpr h3]
    refine ⟨h1, ?_, ?_, ?_⟩
    · simp [hl]
    · simp [List.filter_append, hs]
    · exact Nat.le_succ_of_le hsp
  · exact ⟨hb, hl, hs, hsp⟩

/-- Any sequence of answer submissions preserves the session invariant. -/
theorem run_answers_preserves_invariant (choices : List (Option String)) :
    ∀ st, quiz_invariant st → quiz_invariant (run_answers st choices) := by
  induction choices with
  | nil => exact fun _ h => h
  | cons c rest ih => exact fun st h => ih _ (answer_preserves_invariant st c h)

/-- C9: every session reachable by `build_quiz_session` followed by any
sequence of answer submissions satisfies the invariant: position within
bounds, log length equal to the position, and score counting exactly the
correct log entries (hence score ≤ position). -/
theorem reachable_session_invariant (shuffledBank : List Question)
    (perms : Nat → List (Nat × String)) (a : Int)
    (choices : List (Option String)) :
    quiz_invariant (run_answers
      (((build_quiz_session shuffledBank perms a).quiz).getD ⟨[], 0, 0, []⟩)
      choices) :=
  run_answers_preserves_invariant choices _
    ⟨Nat.zero_le _, rfl, rfl, Nat.le_refl 0⟩

/-- In a list of pairs with pairwise-distinct keys, `findIdx` on key `k`
returns an in-range position holding exactly the member pair `(k, v)`. -/
theorem findIdx_key_spec (xs : List (Nat × String)) (k : Nat) (v : String)
    (hnd : (xs.map Prod.fst).Nodup) (hm : (k, v) ∈ xs) :
    xs.findIdx (fun p => p.1 == k) < xs.length ∧
    xs[xs.findIdx (fun p => p.1 == k)]? = some (k, v) := by
  have hex : ∃ x ∈ xs, (fun p : Nat × String => p.1 == k) x = true :=
    ⟨(k, v), hm, by simp⟩
  have hlt := List.findIdx_lt_length_of_exists hex
  refine ⟨hlt, ?_⟩
  have hpj : (xs[xs.findIdx (fun p => p.1 == k)]).1 = k := by
    have hfi := List.findIdx_getElem (w := hlt)
    simpa using hfi
  obtain ⟨i, hi, hxi⟩ := List.getElem_of_mem hm
  have hmi : i < (xs.map Prod.fst).length := by simpa using hi
  have hmj : xs.findIdx (fun p => p.1 == k) < (xs.map Prod.fst).length := by
    simpa using hlt
  have hfst : (xs.map Prod.fst)[xs.findIdx (fun p => p.1 == k)] =
      (xs.map Prod.fst)[i] := by
    rw [List.getElem_map, List.getElem_map, hxi, hpj]
  have hij : xs.findIdx (fun p => p.1 == k) = i :=
    (List.Nodup.getElem_inj_iff hnd).mp hfst
  subst hij
  rw [List.getElem?_eq_getElem hlt]
  exact congrArg some hxi

/-- C2: shuffling a 4-option question with any permutation of its enumerated
options preserves the multiset of option texts; the remapped correct index
points at an option whose text equals the original correct option's text; and
the old-index-to-new-index remapping is a bijection on {0,1,2,3}. -/
theorem shuffle_question_permutes (q : Question) (indexed : List (Nat × String))
    (hlen : q.options.length = 4) (hai : q.answer_index < 4)
    (hperm : indexed.Perm q.options.enum) :
    (shuffle_question q indexed).options.Perm q.options ∧
    (shuffle_question q indexed).options[(shuffle_question q indexed).answer_index]? =
      q.options[q.answer_index]? ∧
    ∃ e : Fin 4 ≃ Fin 4, ∀ i : Fin 4, (e i : Nat) = remap_index indexed (i : Nat) := by
  have hnd : (indexed.map Prod.fst).Nodup :=
    ((hperm.map Prod.fst).nodup_iff).mpr (List.nodup_enum_map_fst _)
  have hlen_indexed : indexed.length = 4 := by
    rw [hperm.length_eq, List.enum_length, hlen]
  have key : ∀ j : Nat, j < 4 →
      ∃ v, q.options[j]? = some v ∧
        remap_index indexed j < indexed.length ∧
        indexed[remap_index indexed j]? = some (j, v) := by
    intro j hj
    have hjo : j < q.options.length := by rw [hlen]; exact hj
    have henum : q.options.enum[j]? = some (j, q.options[j]) := by
      simp [List.getElem?_enum, List.getElem?_eq_getElem hjo]
    have hm : (j, q.options[j]) ∈ indexed :=
      hperm.mem_iff.mpr (List.getElem?_mem henum)
    obtain ⟨hlt, hget⟩ := findIdx_key_spec indexed j q.options[j] hnd hm
    exact ⟨q.options[j], List.getElem?_eq_getElem hjo, hlt, hget⟩
  refine ⟨?_, ?_, ?_⟩
  · have hp := hperm.map Prod.snd
    rwa [List.enum_map_snd] at hp
  · obtain ⟨v, hvj, hlt, hget⟩ := key q.answer_index hai
    show (indexed.map Prod.snd)[remap_index indexed q.answer_index]? =
      q.options[q.answer_index]?
    rw [List.getElem?_map, hget, hvj]
    rfl
  · have hbound : ∀ i : Fin 4, remap_index indexed (i : Nat) < 4 := by
      intro i
      obtain ⟨_, _, hlt, _⟩ := key (i : Nat) i.isLt
      rwa [hlen_indexed] at hlt
    have ginj : Function.Injective (fun i : Fin 4 =>
        (⟨remap_index indexed (i : Nat), hbound i⟩ : Fin 4)) := by
      intro i j hg
      obtain ⟨vi, _, hli, hfi⟩ := key (i : Nat) i.isLt
      obtain ⟨vj, _, hlj, hfj⟩ := key (j : Nat) j.isLt
      have hval : remap_index indexed (i : Nat) = remap_index indexed (j : Nat) :=
        congrArg Fin.val hg
      rw [hval, hfj] at hfi
      injection hfi with hpair
      exact Fin.ext (congrArg Prod.fst hpair).symm
    exact ⟨Equiv.ofBijective _ (Finite.injective_iff_bijective.mp ginj),
      fun i => rfl⟩

/-- Witness for `shuffle_question_permutes`: `sampleQuestion` (correct index 2)
shuffled by reversing its options. -/
theorem shuffle_question_permutes_witness :
    sampleQuestion.options.length = 4 ∧
    sampleQuestion.answer_index < 4 ∧
    sampleIndexed.Perm sampleQuestion.options.enum ∧
    ((shuffle_question sampleQuestion sampleIndexed).options.Perm
        sampleQuestion.options ∧
     (shuffle_question sampleQuestion sampleIndexed).options[
        (shuffle_question sampleQuestion sampleIndexed).answer_index]? =
       sampleQuestion.options[sampleQuestion.answer_index]? ∧
     ∃ e : Fin 4 ≃ Fin 4, ∀ i : Fin 4,
       (e i : Nat) = remap_index sampleIndexed (i : Nat)) :=
  ⟨by decide, by decide, by decide,
    shuffle_question_permutes sampleQuestion sampleIndexed
      (by decide) (by decide) (by decide)⟩

end ArcQuiz
